import Mathlib

/-!
Shallow embedding of the Flashcard program (fc_card.py, fc_set.py, fc_main.py).

Cards are records of question, answer list, answer type, confirmation override
and the two statistics counters.  A deck's card collection is a `List` of cards,
matching the Python list `self._data['cards']`.  Python exceptions are modelled
by `Option`: a function returns `none` where the source raises.  The ambient
random draws of `random.random()` are modelled as explicit `ℚ` arguments, one
draw per element, and Python's stable `sorted` is modelled by `List.mergeSort`.
-/

/-- Characters removed by Python `str.strip()` (ASCII whitespace:
space, tab, LF, CR, VT, FF). -/
def isPySpace (c : Char) : Bool :=
  c = ' ' || c = '\t' || c = '\n' || c = '\r' || c = Char.ofNat 11 || c = Char.ofNat 12

/-- Model of Python `str.strip()`: drop leading and trailing whitespace. -/
def pyStrip (s : String) : String :=
  String.mk (((s.data.dropWhile isPySpace).reverse.dropWhile isPySpace).reverse)

/-- Consume a run of further digits, allowing single underscores between
digits (Python numeric-literal grouping).  Returns the unconsumed rest. -/
def digTail : List Char → List Char
  | [] => []
  | c :: r =>
    if c.isDigit then digTail r
    else if c = '_' then
      match r with
      | c2 :: r2 => if c2.isDigit then digTail r2 else c :: r
      | [] => c :: r
    else c :: r

/-- Consume a nonempty digit run (with optional underscore grouping);
`none` if the input does not start with a digit. -/
def parseDigits : List Char → Option (List Char)
  | [] => none
  | c :: r => if c.isDigit then some (digTail r) else none

/-- Consume a well-formed exponent part `("e"|"E") ("+"|"-")? digits` if one
is present; otherwise return the input unchanged (the leftover will then fail
the final emptiness check). -/
def parseExpOpt : List Char → List Char
  | [] => []
  | c :: r =>
    if c = 'e' || c = 'E' then
      let r2 := match r with
        | s :: r3 => if s = '+' || s = '-' then r3 else s :: r3
        | [] => []
      match parseDigits r2 with
      | some r4 => r4
      | none => c :: r
    else c :: r

/-- Consume a Python float number body: `digits ["." [digits]] [exp]` or
`"." digits [exp]`.  Returns the unconsumed rest, or `none` on failure. -/
def parseNumber (l : List Char) : Option (List Char) :=
  match parseDigits l with
  | some r =>
    match r with
    | '.' :: r2 =>
      match parseDigits r2 with
      | some r3 => some (parseExpOpt r3)
      | none => some (parseExpOpt r2)
    | _ => some (parseExpOpt r)
  | none =>
    match l with
    | '.' :: r2 =>
      match parseDigits r2 with
      | some r3 => some (parseExpOpt r3)
      | none => none
    | _ => none

/-- Case-insensitively strip the word `w` from the front of `l`. -/
def stripCI : List Char → List Char → Option (List Char)
  | [], l => some l
  | _ :: _, [] => none
  | c :: w, x :: l => if x.toLower = c then stripCI w l else none

/-- Model of CPython `float(s)` acceptance on ASCII input: strip whitespace,
optional sign, then `inf`/`infinity`/`nan` (case-insensitive) or a decimal
number with optional fraction and exponent and underscore digit grouping.
Used for the `float(self._valid_answers[0])` probe in
`FlashcardCard._guessAnswerType` (fc_card.py lines 129-135). -/
def pyFloatAccepts (s : String) : Bool :=
  let l0 := ((s.data.dropWhile isPySpace).reverse.dropWhile isPySpace).reverse
  let l1 := match l0 with
    | c :: r => if c = '+' || c = '-' then r else c :: r
    | [] => []
  match stripCI ['i','n','f','i','n','i','t','y'] l1 with
  | some [] => true
  | _ =>
    match stripCI ['i','n','f'] l1 with
    | some [] => true
    | _ =>
      match stripCI ['n','a','n'] l1 with
      | some [] => true
      | _ =>
        match parseNumber l1 with
        | some [] => true
        | _ => false

/-- A single flashcard: the fields set by `FlashcardCard.__init__`
(fc_card.py lines 19-39), minus the version tag, which no claim concerns. -/
structure FlashcardCard where
  question : String
  validAnswers : List String
  answerType : String
  overrideConfirms : Option Bool
  attempts : Nat
  correct : Nat
deriving DecidableEq

/-- Model of `FlashcardCard._guessAnswerType` (fc_card.py lines 125-149).
The `isnum` probe runs first inside `try/except`, so an `IndexError` from an
empty answer list there is swallowed; the later unguarded
`self._valid_answers[0]` comparison against `'True'` then raises, which is
modelled by `none`. -/
def guessAnswerType (validAnswers : List String) : Option String :=
  let isnum := match validAnswers with
    | [] => false
    | a :: _ => pyFloatAccepts a
  if validAnswers.length > 1 then some "multiple_choice"
  else
    match validAnswers with
    | [] => none
    | a :: _ =>
      if a = "True" || a = "False" then some "boolean"
      else if isnum then some "numeric"
      else if !(a.data.contains ' ') then some "word"
      else some "text"

/-- Model of the `FlashcardCard` constructor (fc_card.py lines 19-39): both
counters start at 0, and when `answer_type` is `None` it is inferred by
`_guessAnswerType`, whose `IndexError` on an empty answer list propagates
(`none`). -/
def FlashcardCard.make (question : String) (validAnswers : List String)
    (answerType : Option String) (overrideConfirms : Option Bool) :
    Option FlashcardCard :=
  match answerType with
  | some t => some ⟨question, validAnswers, t, overrideConfirms, 0, 0⟩
  | none =>
    match guessAnswerType validAnswers with
    | some t => some ⟨question, validAnswers, t, overrideConfirms, 0, 0⟩
    | none => none

/-- Model of `FlashcardCard.ranking` (fc_card.py lines 79-89), with exact
rational arithmetic in place of Python float division. -/
def FlashcardCard.ranking (c : FlashcardCard) : ℚ :=
  if c.attempts = 0 then 0 else (c.correct : ℚ) * (c.correct : ℚ) / (c.attempts : ℚ)

/-- Model of `FlashcardCard.score` (fc_card.py lines 91-97), with exact
rational arithmetic in place of Python float division. -/
def FlashcardCard.score (c : FlashcardCard) : ℚ :=
  if c.attempts = 0 then 0 else 100 * (c.correct : ℚ) / (c.attempts : ℚ)

/-- Model of `FlashcardCard.checkAnswer` (fc_card.py lines 99-123).
Attempts is always incremented; a boolean `confirmed` decides the increment of
`correct` directly, otherwise the answer text is compared with
`valid_answers[0]`.  With an empty answer list that subscript raises
`IndexError`, modelled by `none`.  Returns the updated card and the
function's boolean result. -/
def FlashcardCard.checkAnswer (c : FlashcardCard) (answerText : String)
    (confirmed : Option Bool) : Option (FlashcardCard × Bool) :=
  let c1 : FlashcardCard := { c with attempts := c.attempts + 1 }
  match confirmed with
  | some b =>
    if b then some ({ c1 with correct := c1.correct + 1 }, true) else some (c1, false)
  | none =>
    match c1.validAnswers with
    | [] => none
    | a :: _ =>
      if answerText = a then some ({ c1 with correct := c1.correct + 1 }, true)
      else some (c1, false)

/-- Apply `checkAnswer` for each (answer text, confirmed) pair in turn,
propagating a raised exception as `none`. -/
def runCheckAnswers : FlashcardCard → List (String × Option Bool) → Option FlashcardCard
  | c, [] => some c
  | c, (a, conf) :: rest =>
    match c.checkAnswer a conf with
    | none => none
    | some (c2, _) => runCheckAnswers c2 rest

/-- Lexicographic comparison of the sort keys `(k.ranking(), random.random())`
computed by `FlashcardSet.getSortedCards` (fc_set.py lines 89-96): Python
`sorted` orders tuples lexicographically. -/
def lexLe (p q : ℚ × ℚ) : Bool :=
  decide (p.1 < q.1 ∨ (p.1 = q.1 ∧ p.2 ≤ q.2))

/-- Model of `FlashcardSet.getSortedCards` (fc_set.py lines 83-99).  `cards` is
the deck's card list; `tb` and `rnd` are the per-element `random.random()`
draws of the two `sorted` calls, passed explicitly.  Python's `sorted` is a
stable sort, modelled by `List.mergeSort`. -/
def getSortedCards (cards : List FlashcardCard) (tb rnd : List ℚ)
    (numcards numrandomcards : Nat) : List FlashcardCard :=
  let successlist :=
    (((cards.zip tb).mergeSort
      (fun a b => lexLe (a.1.ranking, a.2) (b.1.ranking, b.2))).map Prod.fst)
  let randomlist :=
    (((cards.zip rnd).mergeSort (fun a b => decide (a.2 ≤ b.2))).map Prod.fst)
  successlist.take numcards ++ randomlist.take numrandomcards

/-- Model of `FlashcardSet.addCard` (fc_set.py lines 107-126).  Python's
`newcard not in cards` and `cards.remove(newcard)` both go through
`FlashcardCard.__eq__` (fc_card.py lines 73-77), which compares only the
`question` strings; `remove` deletes the first match and `append` adds at the
end.  Returns the new card list and the function's boolean result. -/
def addCard (cards : List FlashcardCard) (newcard : FlashcardCard)
    (replaceduplicate : Bool) : List FlashcardCard × Bool :=
  if !(cards.any (fun c => c.question = newcard.question)) then
    (cards ++ [newcard], true)
  else if replaceduplicate then
    (cards.eraseP (fun c => c.question = newcard.question) ++ [newcard], true)
  else
    (cards, false)

/-- Model of `FCStateEditCard._changeQuestionText` (fc_main.py lines 703-711):
an empty input leaves the card unchanged, any other input overwrites the
question text in place, with no duplicate check. -/
def changeQuestionText (c : FlashcardCard) (newtext : String) : FlashcardCard :=
  if newtext ≠ "" then { c with question := newtext } else c

/-- Deck-level effect of `_changeQuestionText`: the edited card is an element
of the live card list (`getAllCards` returns a reference), so mutating it in
place rewrites that position of the list. -/
def editQuestionAt (cards : List FlashcardCard) (i : Nat) (newtext : String) :
    List FlashcardCard :=
  match cards.get? i with
  | some c => cards.set i (changeQuestionText c newtext)
  | none => cards

/-- The unique-by-question deck invariant: no two cards in the list share the
same question string. -/
def uniqueQuestions (cards : List FlashcardCard) : Prop :=
  (cards.map FlashcardCard.question).Nodup

instance (cards : List FlashcardCard) : Decidable (uniqueQuestions cards) :=
  inferInstanceAs (Decidable (cards.map FlashcardCard.question).Nodup)

/-- Model of the row loop of `FCStateImportCSV.run` (fc_main.py lines 341-368),
threading the card list and the imported-question count.  A row with fewer
than 2 raw fields is skipped (with a printed warning); otherwise column 0 is
stripped into the question, the remaining columns are stripped and the empty
ones dropped, and the resulting `FlashcardCard(question, valid_answers)`
constructor call may raise (modelled by `none`), which aborts the import;
otherwise the card goes through `addCard` without replacement. -/
def importCSVRowsAux (cards : List FlashcardCard) (cnt : Nat) :
    List (List String) → Option (List FlashcardCard × Nat)
  | [] => some (cards, cnt)
  | row :: rest =>
    if row.length < 2 then importCSVRowsAux cards cnt rest
    else
      match row with
      | [] => none
      | q :: restFields =>
        let question := pyStrip q
        let validAnswers := (restFields.map pyStrip).filter (fun a => a ≠ "")
        match FlashcardCard.make question validAnswers none none with
        | none => none
        | some card =>
          let res := addCard cards card false
          importCSVRowsAux res.1 (if res.2 then cnt + 1 else cnt) rest

/-- CSV import starting with an imported-question count of 0
(fc_main.py line 346). -/
def importCSVRows (cards : List FlashcardCard) (rows : List (List String)) :
    Option (List FlashcardCard × Nat) :=
  importCSVRowsAux cards 0 rows

/-- The presentation dispatch of `FCStateRunCardList.run` (fc_main.py lines
509-514): a choice menu is used exactly when the answer type is
`multiple_choice` or `boolean`; every other type goes to the free-text
prompt. -/
def usesChoiceMenu (c : FlashcardCard) : Bool :=
  c.answerType = "multiple_choice" || c.answerType = "boolean"

/-- Model of the menu built by `FCStateRunCardList._askMultipleChoice`
(fc_main.py lines 579-597): the fixed two-choice True/False menu is used when
the stored answers are a single `True` or `False`; otherwise all stored
answers are shown, shuffled by per-element random draws `shuf`. -/
def askMultipleChoiceMenu (answers : List String) (shuf : List ℚ) : List String :=
  if answers.length = 1 && (answers.head? = some "True" || answers.head? = some "False") then
    ["True", "False"]
  else
    ((answers.zip shuf).mergeSort (fun a b => decide (a.2 ≤ b.2))).map Prod.fst

/-- Modelled from the source at fc_main.py line 460: the fourth constructor
argument of `FCStateRunCardList` in the endless branch is the bare name
`endless`, which is bound nowhere in the module, so evaluating it raises
`NameError`; the lookup is therefore modelled as `none`. -/
def endlessNameLookup : Option Bool := none

/-- The run-list state assembled by `FCStateRunCardList.__init__`
(fc_main.py lines 470-482). -/
structure FCStateRunCardList where
  cardlist : List FlashcardCard
  endless : Bool
  answered : Nat
  passed : Nat
  index : Nat
deriving DecidableEq

/-- Model of the `endless` branch of `FCStateRunCardsMenu.run` (fc_main.py
lines 438-462): the card list starts as `getSortedCards()` (one ranked card),
is shuffled, and then `FCStateRunCardList(cardlist, mainmenu, set, endless)`
is evaluated; resolving the unbound name `endless` raises `NameError` before
the state is constructed, so the transition never happens (`none`). -/
def runCardsMenuEndless (cards : List FlashcardCard) (tb rnd shuf : List ℚ) :
    Option FCStateRunCardList :=
  let cardlist := getSortedCards cards tb rnd 1 0
  let cardlist :=
    ((cardlist.zip shuf).mergeSort (fun a b => decide (a.2 ≤ b.2))).map Prod.fst
  match endlessNameLookup with
  | none => none
  | some b => some ⟨cardlist, b, 0, 0, 0⟩

/-- Characterization of one successful `checkAnswer` call on a card with a
nonempty answer list. -/
theorem checkAnswer_exists (c : FlashcardCard) (a : String) (conf : Option Bool)
    (hva : c.validAnswers ≠ []) :
    ∃ c2 r, c.checkAnswer a conf = some (c2, r) ∧
      c2.validAnswers = c.validAnswers ∧ c2.question = c.question ∧
      c2.attempts = c.attempts + 1 ∧
      (if r then c2.correct = c.correct + 1 else c2.correct = c.correct) ∧
      (∀ b, conf = some b → r = b) ∧
      (conf = none → (r = true ↔ c.validAnswers.head? = some a)) := by
  cases conf with
  | some b =>
    cases b with
    | true => exact ⟨_, true, rfl, rfl, rfl, rfl, by simp, by simp, by simp⟩
    | false => exact ⟨_, false, rfl, rfl, rfl, rfl, by simp, by simp, by simp⟩
  | none =>
    obtain ⟨a0, rest, hva2⟩ : ∃ a0 rest, c.validAnswers = a0 :: rest := by
      cases hv : c.validAnswers with
      | nil => exact absurd hv hva
      | cons x xs => exact ⟨x, xs, rfl⟩
    by_cases hEq : a = a0
    · refine ⟨{ c with attempts := c.attempts + 1, correct := c.correct + 1 }, true,
        ?_, rfl, rfl, rfl, by simp, by simp, ?_⟩
      · simp [FlashcardCard.checkAnswer, hva2, hEq]
      · simp [hva2, hEq]
    · refine ⟨{ c with attempts := c.attempts + 1 }, false,
        ?_, rfl, rfl, rfl, by simp, by simp, ?_⟩
      · simp [FlashcardCard.checkAnswer, hva2, hEq]
      · simp [hva2]
        exact fun h => absurd h.symm hEq

/-- The counter invariant `correct ≤ attempts` is preserved by any sequence of
`checkAnswer` calls, and no call raises when the answer list is nonempty. -/
theorem runCheckAnswers_le (calls : List (String × Option Bool)) :
    ∀ c : FlashcardCard, c.validAnswers ≠ [] → c.correct ≤ c.attempts →
      ∃ c2, runCheckAnswers c calls = some c2 ∧ c2.correct ≤ c2.attempts ∧
        c2.validAnswers = c.validAnswers ∧ c2.attempts = c.attempts + calls.length := by
  induction calls with
  | nil => exact fun c _ h => ⟨c, rfl, h, rfl, rfl⟩
  | cons p rest ih =>
    intro c hva hle
    obtain ⟨a, conf⟩ := p
    obtain ⟨c2, r, hstep, hans, _, hatt, hcor, -, -⟩ := checkAnswer_exists c a conf hva
    have hle2 : c2.correct ≤ c2.attempts := by
      cases r <;> simp at hcor <;> omega
    obtain ⟨c3, hrun, h3, hva3, hatt3⟩ := ih c2 (hans ▸ hva) hle2
    refine ⟨c3, ?_, h3, hva3.trans hans, ?_⟩
    · simp [runCheckAnswers, hstep, hrun]
    · simp only [List.length_cons]; omega

/-- C1: `checkAnswer(answerText, confirmed)` always increments `attempts` by
exactly 1; a boolean `confirmed` decides the increment of `correct` (iff it is
true); otherwise `correct` is incremented iff `answerText` equals
`validAnswers[0]` exactly; the call returns true iff `correct` was
incremented; and after any sequence of `checkAnswer` calls on a fresh card,
`0 ≤ correct ≤ attempts`. -/
theorem C1_checkAnswer_spec :
    (∀ (c : FlashcardCard) (a : String) (conf : Option Bool),
      c.validAnswers ≠ [] →
      ∃ c2 r, c.checkAnswer a conf = some (c2, r) ∧
        c2.attempts = c.attempts + 1 ∧
        (r = true ↔ c2.correct = c.correct + 1) ∧
        (r = false ↔ c2.correct = c.correct) ∧
        (∀ b, conf = some b → r = b) ∧
        (conf = none → (r = true ↔ c.validAnswers.head? = some a))) ∧
    (∀ (q t : String) (va : List String) (oc : Option Bool)
        (calls : List (String × Option Bool)), va ≠ [] →
      ∃ c2, runCheckAnswers ⟨q, va, t, oc, 0, 0⟩ calls = some c2 ∧
        c2.correct ≤ c2.attempts ∧ c2.attempts = calls.length) := by
  constructor
  · intro c a conf hva
    obtain ⟨c2, r, hstep, -, -, hatt, hcor, hconf, hnone⟩ := checkAnswer_exists c a conf hva
    refine ⟨c2, r, hstep, hatt, ?_, ?_, hconf, hnone⟩
    · cases r <;> simp at hcor <;> simp [hcor]
    · cases r <;> simp at hcor <;> simp [hcor]
  · intro q t va oc calls hva
    obtain ⟨c2, hrun, hle, -, hatt⟩ :=
      runCheckAnswers_le calls ⟨q, va, t, oc, 0, 0⟩ hva (Nat.le_refl 0)
    exact ⟨c2, hrun, hle, by simpa using hatt⟩

/-- Witness for C1 at the spec's scenario card `Card("2+2?", ["4"])` with the
calls `checkAnswer("4")` then `checkAnswer("5")`. -/
theorem C1_witness :
    ((⟨"2+2?", ["4"], "numeric", none, 0, 0⟩ : FlashcardCard).validAnswers ≠ [] ∧
      ∃ c2 r, (⟨"2+2?", ["4"], "numeric", none, 0, 0⟩ : FlashcardCard).checkAnswer "4" none =
          some (c2, r) ∧
        c2.attempts = 0 + 1 ∧
        (r = true ↔ c2.correct = 0 + 1) ∧
        (r = false ↔ c2.correct = 0) ∧
        (∀ b, (none : Option Bool) = some b → r = b) ∧
        ((none : Option Bool) = none →
          (r = true ↔ (["4"] : List String).head? = some "4"))) ∧
    ∃ c2, runCheckAnswers ⟨"2+2?", ["4"], "numeric", none, 0, 0⟩
        [("4", none), ("5", none)] = some c2 ∧
      c2.correct ≤ c2.attempts ∧ c2.attempts = 2 :=
  ⟨⟨by decide,
    C1_checkAnswer_spec.1 ⟨"2+2?", ["4"], "numeric", none, 0, 0⟩ "4" none (by decide)⟩,
    C1_checkAnswer_spec.2 "2+2?" "numeric" ["4"] none [("4", none), ("5", none)] (by decide)⟩

/-- Counterexample to C2: the card with `attempts = 1` and `correct = 0`
(a fresh card after one wrong answer) has `ranking() = 0` and `score() = 0`
although `attempts ≠ 0`, so the two functions do not return 0 *exactly* when
`attempts == 0`. -/
theorem C2_counterexample :
    FlashcardCard.ranking ⟨"q", ["a"], "word", none, 1, 0⟩ = 0 ∧
    FlashcardCard.score ⟨"q", ["a"], "word", none, 1, 0⟩ = 0 ∧
    (⟨"q", ["a"], "word", none, 1, 0⟩ : FlashcardCard).attempts = 1 := by
  refine ⟨?_, ?_, rfl⟩ <;> simp [FlashcardCard.ranking, FlashcardCard.score]

/-- C2 (amended): `ranking()` and `score()` return 0 when `attempts == 0`;
when `attempts > 0` they return `correct²/attempts` and `100·correct/attempts`
in exact arithmetic, and each is 0 iff `attempts == 0` or `correct == 0`. -/
theorem C2_ranking_score (c : FlashcardCard) :
    (c.attempts = 0 → c.ranking = 0 ∧ c.score = 0) ∧
    (0 < c.attempts →
      c.score = 100 * (c.correct : ℚ) / (c.attempts : ℚ) ∧
      c.ranking = (c.correct : ℚ) * (c.correct : ℚ) / (c.attempts : ℚ)) ∧
    (c.ranking = 0 ↔ c.attempts = 0 ∨ c.correct = 0) ∧
    (c.score = 0 ↔ c.attempts = 0 ∨ c.correct = 0) := by
  by_cases h : c.attempts = 0
  · simp [FlashcardCard.ranking, FlashcardCard.score, h]
  · have hq : (c.attempts : ℚ) ≠ 0 := Nat.cast_ne_zero.mpr h
    refine ⟨fun h0 => absurd h0 h,
        fun _ => ⟨by simp [FlashcardCard.score, h], by simp [FlashcardCard.ranking, h]⟩,
        ?_, ?_⟩ <;>
      simp [FlashcardCard.ranking, FlashcardCard.score, h, div_eq_zero_iff, hq,
        mul_eq_zero]

/-- Witness for C2 at the spec's scenario: 1 correct out of 2 attempts gives
`score() = 50` and `ranking() = 1/2`. -/
theorem C2_witness :
    FlashcardCard.score ⟨"2+2?", ["4"], "numeric", none, 2, 1⟩ = 50 ∧
    FlashcardCard.ranking ⟨"2+2?", ["4"], "numeric", none, 2, 1⟩ = 1 / 2 := by
  have h := (C2_ranking_score ⟨"2+2?", ["4"], "numeric", none, 2, 1⟩).2.1 (by decide)
  rw [h.1, h.2]
  norm_num

/-- C7 (amended): a card constructed with an omitted answer type fails exactly
on an empty answer list (the `IndexError` in `_guessAnswerType`; there is no
dedicated `InvalidCardError` in the code), while a card constructed with an
explicit answer type always succeeds, even on an empty answer list. -/
theorem C7_make_spec :
    (∀ (q t : String) (va : List String) (oc : Option Bool),
      FlashcardCard.make q va (some t) oc = some ⟨q, va, t, oc, 0, 0⟩) ∧
    (∀ (q a : String) (rest : List String) (oc : Option Bool),
      ∃ ty, FlashcardCard.make q (a :: rest) none oc =
        some ⟨q, a :: rest, ty, oc, 0, 0⟩) ∧
    (∀ (q : String) (oc : Option Bool), FlashcardCard.make q [] none oc = none) := by
  refine ⟨fun q t va oc => rfl, fun q a rest oc => ?_, fun q oc => rfl⟩
  have : ∃ ty, guessAnswerType (a :: rest) = some ty := by
    unfold guessAnswerType
    dsimp only
    split
    · exact ⟨_, rfl⟩
    · split
      · exact ⟨_, rfl⟩
      · split
        · exact ⟨_, rfl⟩
        · split
          · exact ⟨_, rfl⟩
          · exact ⟨_, rfl⟩
  obtain ⟨ty, hty⟩ := this
  exact ⟨ty, by simp [FlashcardCard.make, hty]⟩

/-- Counterexample to C7: constructing a card with an empty `validAnswers`
list but an explicit answer type succeeds without signalling any error. -/
theorem C7_counterexample :
    FlashcardCard.make "q" [] (some "text") none =
      some ⟨"q", [], "text", none, 0, 0⟩ := rfl

/-- Claim C6 rendered literally for comparison with the source: the same
inference cascade, but with the claim's words "contains no whitespace" in the
fourth branch in place of the source's space-character-only test
`' ' not in self._valid_answers[0]`. -/
def guessAnswerTypeWhitespaceReading (validAnswers : List String) : Option String :=
  let isnum := match validAnswers with
    | [] => false
    | a :: _ => pyFloatAccepts a
  if validAnswers.length > 1 then some "multiple_choice"
  else
    match validAnswers with
    | [] => none
    | a :: _ =>
      if a = "True" || a = "False" then some "boolean"
      else if isnum then some "numeric"
      else if !(a.data.any Char.isWhitespace) then some "word"
      else some "text"

/-- Counterexample to C6: the sole answer `"a\tb"` contains whitespace (a tab)
but no space character, so the code infers `word` where the claim's cascade
says `text`. -/
theorem C6_counterexample :
    (FlashcardCard.make "q" ["a\tb"] none none).map FlashcardCard.answerType =
      some "word" ∧
    guessAnswerTypeWhitespaceReading ["a\tb"] = some "text" ∧
    "a\tb".data.any Char.isWhitespace = true := by
  exact ⟨by decide, by decide, by decide⟩

/-- C6 (amended): when the answer type is omitted at creation and
`validAnswers` is nonempty, construction succeeds and the inferred type is
`multiple_choice` if there is more than one answer; else `boolean` if the sole
answer is literally `"True"` or `"False"`; else `numeric` if it parses as a
Python float; else `word` if it contains no space character; else `text`. -/
theorem C6_answerType_inference (q a : String) (rest : List String)
    (oc : Option Bool) :
    FlashcardCard.make q (a :: rest) none oc =
      some ⟨q, a :: rest,
        (if (a :: rest).length > 1 then "multiple_choice"
         else if a = "True" || a = "False" then "boolean"
         else if pyFloatAccepts a then "numeric"
         else if !(a.data.contains ' ') then "word"
         else "text"), oc, 0, 0⟩ := by
  have hg : guessAnswerType (a :: rest) =
      some (if (a :: rest).length > 1 then "multiple_choice"
        else if a = "True" || a = "False" then "boolean"
        else if pyFloatAccepts a then "numeric"
        else if !(a.data.contains ' ') then "word"
        else "text") := by
    unfold guessAnswerType
    dsimp only
    split_ifs <;> rfl
  simp [FlashcardCard.make, hg]

/-- C4: `addCard` inserts and returns true when no existing card has the same
question; with a question-duplicate present it is a no-op returning false
unless `replaceduplicate`, in which case the first card with that question is
removed, the new card appended, and true returned.  Duplicate detection is by
question string only, and a true result always means the new card is in the
deck. -/
theorem C4_addCard_spec (cards : List FlashcardCard) (newcard : FlashcardCard) :
    ((∀ c ∈ cards, c.question ≠ newcard.question) →
      ∀ repl, addCard cards newcard repl = (cards ++ [newcard], true)) ∧
    ((∃ c ∈ cards, c.question = newcard.question) →
      addCard cards newcard false = (cards, false) ∧
      addCard cards newcard true =
        (cards.eraseP (fun c => c.question = newcard.question) ++ [newcard], true)) ∧
    (∀ repl, (addCard cards newcard repl).2 = true →
      newcard ∈ (addCard cards newcard repl).1) ∧
    (∀ repl, (addCard cards newcard repl).2 = false ↔
      repl = false ∧ ∃ c ∈ cards, c.question = newcard.question) := by
  by_cases hdup : ∃ c ∈ cards, c.question = newcard.question
  · have hany : cards.any (fun c => decide (c.question = newcard.question)) = true := by
      obtain ⟨c, hc, hq⟩ := hdup
      exact List.any_eq_true.mpr ⟨c, hc, by simp [hq]⟩
    refine ⟨?_, fun _ => ⟨?_, ?_⟩, ?_, ?_⟩
    · intro habs
      obtain ⟨c, hc, hq⟩ := hdup
      exact absurd hq (habs c hc)
    · simp [addCard, hany]
    · simp [addCard, hany]
    · intro repl
      cases repl <;> simp [addCard, hany]
    · intro repl
      cases repl <;> simp [addCard, hany, hdup]
  · have hany : cards.any (fun c => decide (c.question = newcard.question)) = false := by
      simp only [List.any_eq_false, decide_eq_true_eq]
      exact fun c hc hq => hdup ⟨c, hc, hq⟩
    refine ⟨fun _ repl => by simp [addCard, hany], fun h => absurd h hdup, ?_, ?_⟩
    · intro repl _
      simp [addCard, hany]
    · intro repl
      simp [addCard, hany, hdup]

/-- Witness for C4: a fresh question is appended with result true; a card
whose question already occurs (with different answers) is rejected without
replacement and supersedes the old card with replacement. -/
theorem C4_witness :
    ((∀ c ∈ [(⟨"q1", ["a"], "word", none, 0, 0⟩ : FlashcardCard)],
        c.question ≠ (⟨"q2", ["b"], "word", none, 0, 0⟩ : FlashcardCard).question) ∧
      addCard [⟨"q1", ["a"], "word", none, 0, 0⟩] ⟨"q2", ["b"], "word", none, 0, 0⟩ false =
        ([⟨"q1", ["a"], "word", none, 0, 0⟩, ⟨"q2", ["b"], "word", none, 0, 0⟩], true)) ∧
    ((∃ c ∈ [(⟨"q1", ["a"], "word", none, 0, 0⟩ : FlashcardCard)],
        c.question = (⟨"q1", ["b"], "word", none, 0, 0⟩ : FlashcardCard).question) ∧
      addCard [⟨"q1", ["a"], "word", none, 0, 0⟩] ⟨"q1", ["b"], "word", none, 0, 0⟩ false =
        ([⟨"q1", ["a"], "word", none, 0, 0⟩], false) ∧
      addCard [⟨"q1", ["a"], "word", none, 0, 0⟩] ⟨"q1", ["b"], "word", none, 0, 0⟩ true =
        (([(⟨"q1", ["a"], "word", none, 0, 0⟩ : FlashcardCard)].eraseP
            (fun c => c.question = (⟨"q1", ["b"], "word", none, 0, 0⟩ : FlashcardCard).question))
          ++ [⟨"q1", ["b"], "word", none, 0, 0⟩], true)) :=
  ⟨⟨by decide,
    (C4_addCard_spec [⟨"q1", ["a"], "word", none, 0, 0⟩] ⟨"q2", ["b"], "word", none, 0, 0⟩).1
      (by decide) false⟩,
   ⟨⟨⟨"q1", ["a"], "word", none, 0, 0⟩, by decide⟩,
    (C4_addCard_spec [⟨"q1", ["a"], "word", none, 0, 0⟩] ⟨"q1", ["b"], "word", none, 0, 0⟩).2.1
      ⟨⟨"q1", ["a"], "word", none, 0, 0⟩, by decide⟩⟩⟩

/-- `addCard` preserves the unique-by-question invariant for either value of
`replaceduplicate`. -/
theorem addCard_uniqueQuestions (cards : List FlashcardCard)
    (newcard : FlashcardCard) (repl : Bool) (h : uniqueQuestions cards) :
    uniqueQuestions (addCard cards newcard repl).1 := by
  by_cases hdup : cards.any (fun c => decide (c.question = newcard.question)) = true
  · cases repl with
    | false =>
      have : (addCard cards newcard false).1 = cards := by simp [addCard, hdup]
      rw [this]; exact h
    | true =>
      obtain ⟨c, hc, hq0⟩ := List.any_eq_true.mp hdup
      have hq : c.question = newcard.question := by simpa using hq0
      obtain ⟨a, l₁, l₂, hl₁, hpa, hcards, herase⟩ :=
        @List.exists_of_eraseP _ (fun x => decide (x.question = newcard.question))
          cards c hc (by simp [hq])
      have hpa2 : a.question = newcard.question := by simpa using hpa
      have hres : (addCard cards newcard true).1 = (l₁ ++ l₂) ++ [newcard] := by
        simp [addCard, hdup, herase]
      have h2 : ((l₁.map FlashcardCard.question) ++
          newcard.question :: (l₂.map FlashcardCard.question)).Nodup := by
        rw [hcards] at h
        unfold uniqueQuestions at h
        simpa [hpa2] using h
      have hperm : ((l₁.map FlashcardCard.question) ++
            (l₂.map FlashcardCard.question) ++ [newcard.question]).Perm
          ((l₁.map FlashcardCard.question) ++
            newcard.question :: (l₂.map FlashcardCard.question)) := by
        rw [List.append_assoc]
        exact List.Perm.append_left _ List.perm_append_comm
      unfold uniqueQuestions
      rw [hres]
      have hmap : (((l₁ ++ l₂) ++ [newcard]).map FlashcardCard.question) =
          (l₁.map FlashcardCard.question) ++
            (l₂.map FlashcardCard.question) ++ [newcard.question] := by
        simp
      rw [hmap]
      exact hperm.symm.nodup h2
  · have hnotmem : newcard.question ∉ cards.map FlashcardCard.question := by
      intro hmem
      obtain ⟨c, hc, hq⟩ := List.mem_map.mp hmem
      exact hdup (List.any_eq_true.mpr ⟨c, hc, by simp [hq]⟩)
    have hres : (addCard cards newcard repl).1 = cards ++ [newcard] := by
      simp only [Bool.not_eq_true] at hdup
      simp [addCard, hdup]
    unfold uniqueQuestions at h ⊢
    rw [hres]
    simp only [List.map_append, List.map_cons, List.map_nil]
    exact List.Nodup.append h (List.nodup_singleton _)
      (by simpa [List.disjoint_singleton] using hnotmem)

/-- The CSV import loop preserves the unique-by-question invariant whenever it
completes without raising. -/
theorem importCSVRowsAux_uniqueQuestions (rows : List (List String)) :
    ∀ (cards : List FlashcardCard) (cnt : Nat) (out : List FlashcardCard × Nat),
      uniqueQuestions cards → importCSVRowsAux cards cnt rows = some out →
      uniqueQuestions out.1 := by
  induction rows with
  | nil =>
    intro cards cnt out h hrun
    simp only [importCSVRowsAux, Option.some.injEq] at hrun
    rw [← hrun]
    exact h
  | cons row rest ih =>
    intro cards cnt out h hrun
    simp only [importCSVRowsAux] at hrun
    split at hrun
    · exact ih cards cnt out h hrun
    · split at hrun
      · exact absurd hrun (by simp)
      · split at hrun
        · exact absurd hrun (by simp)
        · exact ih _ _ out (addCard_uniqueQuestions _ _ _ h) hrun

/-- Counterexample to C5: a two-card deck satisfying the invariant, where
editing the second card's question text to the first card's question yields a
deck with a duplicated question — `_changeQuestionText` never checks for
duplicates. -/
theorem C5_counterexample :
    uniqueQuestions [(⟨"q1", ["a"], "word", none, 0, 0⟩ : FlashcardCard),
      ⟨"q2", ["b"], "word", none, 0, 0⟩] ∧
    editQuestionAt [⟨"q1", ["a"], "word", none, 0, 0⟩,
        ⟨"q2", ["b"], "word", none, 0, 0⟩] 1 "q1" =
      [⟨"q1", ["a"], "word", none, 0, 0⟩, ⟨"q1", ["b"], "word", none, 0, 0⟩] ∧
    decide (uniqueQuestions [(⟨"q1", ["a"], "word", none, 0, 0⟩ : FlashcardCard),
      ⟨"q1", ["b"], "word", none, 0, 0⟩]) = false := by
  refine ⟨by decide, by decide, by decide⟩

/-- C5 (amended): `addCard` (with either replacement flag) and CSV import
preserve the unique-by-question invariant, but editing an existing card's
question text does not check for duplicates and can break it (see the
counterexample). -/
theorem C5_invariant_preservation :
    (∀ (cards : List FlashcardCard) (newcard : FlashcardCard) (repl : Bool),
      uniqueQuestions cards → uniqueQuestions (addCard cards newcard repl).1) ∧
    (∀ (cards : List FlashcardCard) (rows : List (List String))
        (out : List FlashcardCard × Nat),
      uniqueQuestions cards → importCSVRows cards rows = some out →
      uniqueQuestions out.1) :=
  ⟨addCard_uniqueQuestions,
   fun cards rows out h hrun => importCSVRowsAux_uniqueQuestions rows cards 0 out h hrun⟩

/-- Witness for C5: the invariant holds on a concrete deck, is preserved by a
duplicate-replacing `addCard`, and by a concrete two-row CSV import. -/
theorem C5_witness :
    (uniqueQuestions [(⟨"q1", ["a"], "word", none, 0, 0⟩ : FlashcardCard)] ∧
      uniqueQuestions
        (addCard [⟨"q1", ["a"], "word", none, 0, 0⟩] ⟨"q1", ["b"], "word", none, 0, 0⟩
          true).1) ∧
    (importCSVRows [] [["Q1", "a"], ["Q2", "b"]] =
        some ([⟨"Q1", ["a"], "word", none, 0, 0⟩, ⟨"Q2", ["b"], "word", none, 0, 0⟩], 2) ∧
      uniqueQuestions ([(⟨"Q1", ["a"], "word", none, 0, 0⟩ : FlashcardCard),
        ⟨"Q2", ["b"], "word", none, 0, 0⟩])) :=
  ⟨⟨by decide,
    C5_invariant_preservation.1 [⟨"q1", ["a"], "word", none, 0, 0⟩]
      ⟨"q1", ["b"], "word", none, 0, 0⟩ true (by decide)⟩,
   by decide,
   C5_invariant_preservation.2 [] [["Q1", "a"], ["Q2", "b"]]
     ([⟨"Q1", ["a"], "word", none, 0, 0⟩, ⟨"Q2", ["b"], "word", none, 0, 0⟩], 2)
     (by decide) (by decide)⟩

/-- Transitivity of the lexicographic sort-key comparison. -/
theorem lexLe_trans (p q r : ℚ × ℚ) (h1 : lexLe p q = true) (h2 : lexLe q r = true) :
    lexLe p r = true := by
  simp only [lexLe, decide_eq_true_eq] at h1 h2 ⊢
  rcases h1 with h | ⟨he, ht⟩ <;> rcases h2 with h2 | ⟨he2, ht2⟩
  · exact Or.inl (h.trans h2)
  · exact Or.inl (he2 ▸ h)
  · exact Or.inl (he ▸ h2)
  · exact Or.inr ⟨he.trans he2, ht.trans ht2⟩

/-- Totality of the lexicographic sort-key comparison. -/
theorem lexLe_total (p q : ℚ × ℚ) : (lexLe p q || lexLe q p) = true := by
  simp only [lexLe, Bool.or_eq_true, decide_eq_true_eq]
  rcases lt_trichotomy p.1 q.1 with h | h | h
  · exact Or.inl (Or.inl h)
  · rcases le_total p.2 q.2 with ht | ht
    · exact Or.inl (Or.inr ⟨h, ht⟩)
    · exact Or.inr (Or.inr ⟨h.symm, ht⟩)
  · exact Or.inr (Or.inl h)

/-- C3: `getSortedCards(n, m)` is the first `n` elements of a permutation of
the full card list that is sorted ascending by `ranking()` (ties broken by the
random draws), followed by the first `m` elements of a random permutation of
the full card list; both parts have length `min` of the request and the deck
size, both draw from the full card list, no input errors, and the two parts
can contain duplicates of each other (shown on a one-card deck). -/
theorem C3_getSortedCards_spec :
    (∀ (cards : List FlashcardCard) (tb rnd : List ℚ) (n m : Nat),
      tb.length = cards.length → rnd.length = cards.length →
      ∃ ranked shuffled : List FlashcardCard,
        ranked.Perm cards ∧ shuffled.Perm cards ∧
        ranked.Pairwise (fun a b => a.ranking ≤ b.ranking) ∧
        getSortedCards cards tb rnd n m = ranked.take n ++ shuffled.take m ∧
        (ranked.take n).length = min n cards.length ∧
        (shuffled.take m).length = min m cards.length ∧
        (∀ c ∈ ranked.take n, c ∈ cards) ∧ (∀ c ∈ shuffled.take m, c ∈ cards)) ∧
    getSortedCards [⟨"q", ["a"], "word", none, 0, 0⟩] [0] [0] 1 1 =
      [⟨"q", ["a"], "word", none, 0, 0⟩, ⟨"q", ["a"], "word", none, 0, 0⟩] := by
  constructor
  · intro cards tb rnd n m htb hrnd
    refine ⟨(((cards.zip tb).mergeSort
        (fun a b => lexLe (a.1.ranking, a.2) (b.1.ranking, b.2))).map Prod.fst),
      (((cards.zip rnd).mergeSort (fun a b => decide (a.2 ≤ b.2))).map Prod.fst),
      ?_, ?_, ?_, rfl, ?_, ?_, ?_, ?_⟩
    case refine_1 =>
      have h1 := (List.mergeSort_perm (cards.zip tb)
        (fun a b => lexLe (a.1.ranking, a.2) (b.1.ranking, b.2))).map Prod.fst
      rwa [List.map_fst_zip cards tb (by omega)] at h1
    case refine_2 =>
      have h1 := (List.mergeSort_perm (cards.zip rnd)
        (fun a b => decide (a.2 ≤ b.2))).map Prod.fst
      rwa [List.map_fst_zip cards rnd (by omega)] at h1
    case refine_3 =>
      have hs := @List.sorted_mergeSort (FlashcardCard × ℚ)
        (fun a b => lexLe (a.1.ranking, a.2) (b.1.ranking, b.2))
        (fun a b c => lexLe_trans (a.1.ranking, a.2) (b.1.ranking, b.2) (c.1.ranking, c.2))
        (fun a b => lexLe_total (a.1.ranking, a.2) (b.1.ranking, b.2))
        (cards.zip tb)
      refine List.pairwise_map.mpr (hs.imp ?_)
      intro a b hab
      simp only [lexLe, decide_eq_true_eq] at hab
      rcases hab with h | ⟨he, -⟩
      · exact le_of_lt h
      · exact le_of_eq he
    case refine_4 =>
      have hlen : (((cards.zip tb).mergeSort
          (fun a b => lexLe (a.1.ranking, a.2) (b.1.ranking, b.2))).map Prod.fst).length =
          cards.length := by
        simp [(List.mergeSort_perm _ _).length_eq, List.length_zip, htb]
      simp [List.length_take, hlen]
    case refine_5 =>
      have hlen : (((cards.zip rnd).mergeSort
          (fun a b => decide (a.2 ≤ b.2))).map Prod.fst).length = cards.length := by
        simp [(List.mergeSort_perm _ _).length_eq, List.length_zip, hrnd]
      simp [List.length_take, hlen]
    case refine_6 =>
      intro c hc
      have h1 := (List.mergeSort_perm (cards.zip tb)
        (fun a b => lexLe (a.1.ranking, a.2) (b.1.ranking, b.2))).map Prod.fst
      rw [List.map_fst_zip cards tb (by omega)] at h1
      exact h1.subset ((List.take_sublist n _).subset hc)
    case refine_7 =>
      intro c hc
      have h1 := (List.mergeSort_perm (cards.zip rnd)
        (fun a b => decide (a.2 ≤ b.2))).map Prod.fst
      rw [List.map_fst_zip cards rnd (by omega)] at h1
      exact h1.subset ((List.take_sublist m _).subset hc)
  · simp [getSortedCards, List.mergeSort]

/-- Witness for C3 on a concrete two-card deck (rankings 1 and 0) with
`numRanked = 1`, `numRandom = 2`. -/
theorem C3_witness :
    ([(0 : ℚ), 0].length = [(⟨"qa", ["1"], "numeric", none, 1, 1⟩ : FlashcardCard),
        ⟨"qb", ["2"], "numeric", none, 0, 0⟩].length) ∧
    ∃ ranked shuffled : List FlashcardCard,
      ranked.Perm [⟨"qa", ["1"], "numeric", none, 1, 1⟩,
        ⟨"qb", ["2"], "numeric", none, 0, 0⟩] ∧
      shuffled.Perm [⟨"qa", ["1"], "numeric", none, 1, 1⟩,
        ⟨"qb", ["2"], "numeric", none, 0, 0⟩] ∧
      ranked.Pairwise (fun a b => a.ranking ≤ b.ranking) ∧
      getSortedCards [⟨"qa", ["1"], "numeric", none, 1, 1⟩,
          ⟨"qb", ["2"], "numeric", none, 0, 0⟩] [0, 0] [0, 0] 1 2 =
        ranked.take 1 ++ shuffled.take 2 ∧
      (ranked.take 1).length = min 1 [(⟨"qa", ["1"], "numeric", none, 1, 1⟩ : FlashcardCard),
        ⟨"qb", ["2"], "numeric", none, 0, 0⟩].length ∧
      (shuffled.take 2).length = min 2 [(⟨"qa", ["1"], "numeric", none, 1, 1⟩ : FlashcardCard),
        ⟨"qb", ["2"], "numeric", none, 0, 0⟩].length ∧
      (∀ c ∈ ranked.take 1, c ∈ [(⟨"qa", ["1"], "numeric", none, 1, 1⟩ : FlashcardCard),
        ⟨"qb", ["2"], "numeric", none, 0, 0⟩]) ∧
      (∀ c ∈ shuffled.take 2, c ∈ [(⟨"qa", ["1"], "numeric", none, 1, 1⟩ : FlashcardCard),
        ⟨"qb", ["2"], "numeric", none, 0, 0⟩]) :=
  ⟨rfl,
   C3_getSortedCards_spec.1 [⟨"qa", ["1"], "numeric", none, 1, 1⟩,
     ⟨"qb", ["2"], "numeric", none, 0, 0⟩] [0, 0] [0, 0] 1 2 rfl rfl⟩

/-- C8: the CSV row `"Q1~"` parses to the two raw fields `["Q1", ""]`, evades
the `len(row) < 2` guard, and crashes the import (uncaught `IndexError` from
constructing a card with no usable answers) instead of being skipped with a
warning; a row with fewer than 2 raw fields is skipped, and a row with two or
more usable fields is imported with trimmed question and trimmed non-empty
ordered answers. -/
theorem C8_import_crash_on_missing_answer :
    importCSVRows [] [["Q1", ""]] = none ∧
    decide ((["Q1", ""] : List String).length < 2) = false ∧
    importCSVRows [] [["Q1"]] = some ([], 0) ∧
    importCSVRows [] [["Q1", " a ", "", "b"]] =
      some ([⟨"Q1", ["a", "b"], "multiple_choice", none, 0, 0⟩], 1) :=
  ⟨rfl, rfl, rfl, rfl⟩

/-- C9: selecting the `endless` run always raises `NameError` (the bare name
`endless` at fc_main.py line 460 is unbound), so the transition into the
endless card run never happens, for every deck and every random draw. -/
theorem C9_endless_name_error (cards : List FlashcardCard) (tb rnd shuf : List ℚ) :
    runCardsMenuEndless cards tb rnd shuf = none := rfl

/-- Counterexample to C10: a card with answer type `boolean` that stores a
distractor is presented via a choice menu, but the menu shows the stored
answers (shuffled), not the fixed 2-choice True/False menu, because the code
keys the True/False branch on the stored answers being a single
`True`/`False`, not on the answer type. -/
theorem C10_counterexample :
    usesChoiceMenu ⟨"q", ["True", "maybe"], "boolean", none, 0, 0⟩ = true ∧
    askMultipleChoiceMenu ["True", "maybe"] [0, 1] = ["True", "maybe"] ∧
    ((["True", "maybe"] : List String) = ["True", "False"] ↔ False) := by
  refine ⟨by decide, ?_, by decide⟩
  norm_num [askMultipleChoiceMenu, List.mergeSort]

/-- C10 (amended): a card is asked via a choice menu iff its answer type is
`multiple_choice` or `boolean`; the fixed 2-choice True/False menu appears
exactly when the stored answers are the single answer `"True"` or the single
answer `"False"` (whatever the answer type); any other choice-menu card gets
all its stored answers in shuffled order. -/
theorem C10_presentation_spec :
    (∀ c : FlashcardCard, usesChoiceMenu c = true ↔
      (c.answerType = "multiple_choice" ∨ c.answerType = "boolean")) ∧
    (∀ (answers : List String) (shuf : List ℚ),
      (answers = ["True"] ∨ answers = ["False"]) →
      askMultipleChoiceMenu answers shuf = ["True", "False"]) ∧
    (∀ (answers : List String) (shuf : List ℚ),
      (answers.length = 1 && (answers.head? = some "True" ||
        answers.head? = some "False")) = false →
      shuf.length = answers.length →
      (askMultipleChoiceMenu answers shuf).Perm answers) := by
  refine ⟨?_, ?_, ?_⟩
  · intro c
    simp [usesChoiceMenu]
  · intro answers shuf h
    rcases h with h | h <;> subst h <;> simp [askMultipleChoiceMenu]
  · intro answers shuf hcond hlen
    rw [askMultipleChoiceMenu, if_neg (by simp [hcond])]
    have h1 := (List.mergeSort_perm (answers.zip shuf)
      (fun a b => decide (a.2 ≤ b.2))).map Prod.fst
    rwa [List.map_fst_zip answers shuf (by omega)] at h1

/-- Witness for C10: the singleton `["True"]` card gets the fixed True/False
menu, and a two-answer card gets a permutation of its stored answers. -/
theorem C10_witness :
    ((["True"] : List String) = ["True"] ∨ (["True"] : List String) = ["False"]) ∧
    askMultipleChoiceMenu ["True"] [0] = ["True", "False"] ∧
    (askMultipleChoiceMenu ["a", "b"] [0, 1]).Perm ["a", "b"] :=
  ⟨Or.inl rfl,
   C10_presentation_spec.2.1 ["True"] [0] (Or.inl rfl),
   C10_presentation_spec.2.2 ["a", "b"] [0, 1] (by decide) (by decide)⟩
